import Mathlib

/-!
Shallow embedding of the FitScore engine of the `ai-recruiting-platform`
backend (`apps/backend/src/services/fit_score_service.py`), together with
theorems settling the specification claims about it.

Modelling conventions:
* Python `float` values are modelled as exact rationals (`ℚ`).
* Python `None` is modelled with `Option`; Python truthiness on the values
  that actually flow through the service (`None`, numbers, strings, lists,
  dicts) is modelled explicitly at each use site: `not x` is true for
  `None`, `0`, the empty string and the empty list.
* A JSON dict with a known key set is modelled as a structure of `Option`
  fields; `'k' in d` is field presence (`isSome`).
* The external LLM culture-fit call is modelled by an explicit parameter
  `judgment : Option (Option ℚ)`: `none` is a call that raises or times
  out, `some none` a reply whose text does not parse as a float, and
  `some (some q)` a reply parsing to the number `q`.
* `datetime.utcnow()` is modelled by an explicit clock parameter `now : ℕ`.
* The SQLAlchemy session is modelled by an explicit `DB` state containing
  the three tables touched by the service; a query with `.first()` is
  `List.find?` over the table in storage order and `order_by(col.desc())`
  is a stable descending sort.
-/

namespace FitScore

/-- `a.isPrefixOf`-based substring test on character lists:
`isSubstr a b` is the Python expression `a in b` for strings. -/
def isSubstr (a : List Char) : List Char → Bool
  | [] => a.isEmpty
  | c :: rest => a.isPrefixOf (c :: rest) || isSubstr a rest

/-- Python `a in b` for strings (substring containment). -/
def substrOf (a b : String) : Bool := isSubstr a.data b.data

/-- Python `s.lower()` (ASCII case folding, which covers the vocabulary the
service compares against). -/
def lowerStr (s : String) : String := ⟨s.data.map Char.toLower⟩

/-- Python `s.strip()`: drop leading and trailing whitespace. -/
def trimStr (s : String) : String :=
  ⟨((s.data.dropWhile Char.isWhitespace).reverse.dropWhile Char.isWhitespace).reverse⟩

/-- The parsed-requirements JSON dict stored on a job
(`job.parsed_requirements`); each field models presence of the
corresponding key. -/
structure ParsedRequirements where
  required_skills : Option (List String)
  experience_required : Option ℚ
  education_required : Option String
deriving DecidableEq, Repr

/-- The parsed-resume JSON dict stored on a candidate
(`candidate.resume_parsed`). -/
structure ResumeParsed where
  education : Option (List String)
  summary : Option String
deriving DecidableEq, Repr

/-- The fields of the `Job` model read by the FitScore service. -/
structure Job where
  title : String
  parsed_requirements : Option ParsedRequirements
  requirements : Option (List String)
  description : Option String
  location : Option String
deriving DecidableEq, Repr

/-- The fields of the `Candidate` model read by the FitScore service. -/
structure Candidate where
  first_name : String
  last_name : String
  skills : Option (List String)
  experience_years : Option ℚ
  resume_parsed : Option ResumeParsed
  location : Option String
  current_title : Option String
  current_company : Option String
deriving DecidableEq, Repr

/-- The job-skill extraction at the top of `_calculate_skill_match`:
`parsed_requirements['required_skills']` when the dict is present and has
the key, else `job.requirements`, else `[]` (an absent or empty
`requirements` list both yield `[]`). -/
def jobSkillsOf (job : Job) : List String :=
  match job.parsed_requirements with
  | some pr =>
    match pr.required_skills with
    | some ls => ls
    | none =>
      match job.requirements with
      | some r => r
      | none => []
  | none =>
    match job.requirements with
    | some r => r
    | none => []

/-- The inner loop of `_calculate_skill_match` for one required skill
(already lower-cased): scan the candidate skills in order and stop at the
first one that matches; an exact match contributes `1`, a substring match
in either direction contributes `0.8`, no match contributes `0`. -/
def matchSkill (js : String) : List String → ℚ
  | [] => 0
  | cs :: rest =>
    if js = lowerStr cs then 1
    else if substrOf js (lowerStr cs) || substrOf (lowerStr cs) js then 4/5
    else matchSkill js rest

/-- `FitScoreService._calculate_skill_match`. -/
def calculate_skill_match (job : Job) (candidate : Candidate) : ℚ :=
  let job_skills := jobSkillsOf job
  let candidate_skills := candidate.skills.getD []
  if job_skills.isEmpty || candidate_skills.isEmpty then 0
  else
    let matched_skills := (job_skills.map fun s => matchSkill (lowerStr s) candidate_skills).sum
    let total_required_skills : ℚ := job_skills.length
    let skill_match_score := if 0 < total_required_skills then matched_skills / total_required_skills else 0
    min skill_match_score 1

/-- The required-experience extraction of `_calculate_experience_match`:
`parsed_requirements['experience_required']` when present. -/
def requiredExpOf (job : Job) : Option ℚ :=
  match job.parsed_requirements with
  | some pr => pr.experience_required
  | none => none

/-- `FitScoreService._calculate_experience_match`.  Note the Python guard
`if not required_exp or not candidate_exp` treats the number `0` like
`None` (falsy), so a present value of `0` on either side yields `0.5`. -/
def calculate_experience_match (job : Job) (candidate : Candidate) : ℚ :=
  match requiredExpOf job, candidate.experience_years with
  | some required_exp, some candidate_exp =>
    if required_exp = 0 ∨ candidate_exp = 0 then 1/2
    else if required_exp ≤ candidate_exp then 1
    else candidate_exp / required_exp
  | _, _ => 1/2

/-- The education vocabulary dict of `_calculate_education_match`, in its
Python insertion (iteration) order. -/
def education_levels : List (String × ℚ) :=
  [("high school", 1), ("associate", 2), ("bachelor", 3), ("master", 4), ("phd", 5), ("mba", 4)]

/-- The level-assignment loop of `_calculate_education_match` for one side:
every vocabulary entry contained in the lower-cased text overwrites the
level, so the last matching entry in iteration order wins; no match leaves
the initial `0`. -/
def levelOf (edu : String) : ℚ :=
  education_levels.foldl (fun acc lv => if substrOf lv.1 (lowerStr edu) then lv.2 else acc) 0

/-- The candidate-education extraction of `_calculate_education_match`:
the first entry of `resume_parsed['education']` when the dict, the key and
a first entry all exist. -/
def candidateEduOf (candidate : Candidate) : Option String :=
  match candidate.resume_parsed with
  | some rp =>
    match rp.education with
    | some l => l.head?
    | none => none
  | none => none

/-- The required-education extraction of `_calculate_education_match`. -/
def requiredEduOf (job : Job) : Option String :=
  match job.parsed_requirements with
  | some pr => pr.education_required
  | none => none

/-- `FitScoreService._calculate_education_match`.  An absent string and an
empty string are both falsy in the Python guard, yielding `0.5`. -/
def calculate_education_match (job : Job) (candidate : Candidate) : ℚ :=
  match requiredEduOf job, candidateEduOf candidate with
  | some required_edu, some candidate_edu =>
    if required_edu.isEmpty ∨ candidate_edu.isEmpty then 1/2
    else
      let required_level := levelOf required_edu
      let candidate_level := levelOf candidate_edu
      if required_level ≤ candidate_level then 1
      else if 0 < required_level then candidate_level / required_level else 0
  | _, _ => 1/2

/-- `FitScoreService._calculate_location_match`. -/
def calculate_location_match (job : Job) (candidate : Candidate) : ℚ :=
  match job.location, candidate.location with
  | some job_location, some candidate_location =>
    if job_location.isEmpty ∨ candidate_location.isEmpty then 1/2
    else
      let jl := trimStr (lowerStr job_location)
      let cl := trimStr (lowerStr candidate_location)
      if jl = cl then 1
      else if substrOf jl cl ∨ substrOf cl jl then 4/5
      else if substrOf "remote" jl ∨ substrOf "remote" cl then 9/10
      else 3/10
  | _, _ => 1/2

/-- The candidate-summary extraction of `_calculate_culture_fit`: the
default is the empty string, replaced by `resume_parsed['summary']` when
present. -/
def candidateSummaryOf (candidate : Candidate) : String :=
  match candidate.resume_parsed with
  | some rp => rp.summary.getD ""
  | none => ""

/-- `FitScoreService._calculate_culture_fit`.  The external LLM call is the
explicit `judgment` argument: `none` models the call raising or timing out
(caught by the outer `except`, which returns `0.5`), `some none` a reply
whose text `float(...)` cannot parse (inner `except`, `0.5`), and
`some (some score)` a parsed numeric reply, clamped by
`max(0, min(1, score))`. -/
def calculate_culture_fit (job : Job) (candidate : Candidate)
    (judgment : Option (Option ℚ)) : ℚ :=
  let candidate_summary := candidateSummaryOf candidate
  match job.description with
  | none => 1/2
  | some job_desc =>
    if job_desc.isEmpty ∨ candidate_summary.isEmpty then 1/2
    else
      match judgment with
      | none => 1/2
      | some none => 1/2
      | some (some score) => max 0 (min 1 score)

/-- The five sub-scores, as passed to `_generate_recommendations` and
stored in `fit_score_details`. -/
structure Scores where
  skill_match : ℚ
  experience_match : ℚ
  education_match : ℚ
  location_match : ℚ
  culture_fit : ℚ
deriving DecidableEq, Repr

/-- The weighted sum in `calculate_fit_score` with the literal weights
`{skill: 0.35, experience: 0.25, education: 0.15, location: 0.10,
culture: 0.15}`. -/
def overall_of (s : Scores) : ℚ :=
  s.skill_match * (35/100) + s.experience_match * (25/100) +
  s.education_match * (15/100) + s.location_match * (10/100) +
  s.culture_fit * (15/100)

/-- A recommendation message produced by `_generate_recommendations`; the
constructor payloads carry the data interpolated into the message text
(the first three missing skills, resp. the numeric experience gap). -/
inductive Recommendation where
  | skillGap : List String → Recommendation
  | experienceGap : ℚ → Recommendation
  | cultureResearch : Recommendation
  | skillPraise : Recommendation
  | experiencePraise : Recommendation
  | fallback : Recommendation
deriving DecidableEq, Repr

/-- The missing-skill computation of recommendation rule 1: the required
skills (taken from `parsed_requirements` only, with default `[]`) whose
lower-casing does not occur among the lower-cased candidate skills. -/
def missingSkillsOf (job : Job) (candidate : Candidate) : List String :=
  let job_skills :=
    match job.parsed_requirements with
    | some pr => pr.required_skills.getD []
    | none => []
  let candidate_skills := candidate.skills.getD []
  job_skills.filter fun s => !((candidate_skills.map lowerStr).contains (lowerStr s))

/-- `FitScoreService._generate_recommendations`: six rules evaluated in
order, each appending at most one message; the fallback fires only when
the list is still empty; the result is truncated to five entries. -/
def generate_recommendations (job : Job) (candidate : Candidate) (scores : Scores) :
    List Recommendation :=
  let recs : List Recommendation := []
  let recs :=
    if scores.skill_match < 7/10 then
      let missing_skills := missingSkillsOf job candidate
      if missing_skills.isEmpty then recs
      else recs ++ [.skillGap (missing_skills.take 3)]
    else recs
  let recs :=
    if scores.experience_match < 4/5 then
      let required_exp :=
        (match job.parsed_requirements with
         | some pr => pr.experience_required.getD 0
         | none => 0)
      let candidate_exp := candidate.experience_years.getD 0
      if candidate_exp < required_exp then recs ++ [.experienceGap (required_exp - candidate_exp)]
      else recs
    else recs
  let recs := if scores.culture_fit < 3/5 then recs ++ [.cultureResearch] else recs
  let recs := if 9/10 < scores.skill_match then recs ++ [.skillPraise] else recs
  let recs := if 9/10 < scores.experience_match then recs ++ [.experiencePraise] else recs
  let recs := if recs.isEmpty then recs ++ [.fallback] else recs
  recs.take 5

/-- The evidence dict built by `_get_score_breakdown`. -/
structure Breakdown where
  title : String
  required_skills : List String
  experience_required : ℚ
  name : String
  skills : List String
  experience_years : Option ℚ
  current_role : Option String
  current_company : Option String
deriving DecidableEq, Repr

/-- `FitScoreService._get_score_breakdown`. -/
def get_score_breakdown (job : Job) (candidate : Candidate) : Breakdown :=
  { title := job.title
    required_skills :=
      (match job.parsed_requirements with
       | some pr => pr.required_skills.getD []
       | none => [])
    experience_required :=
      (match job.parsed_requirements with
       | some pr => pr.experience_required.getD 0
       | none => 0)
    name := candidate.first_name ++ " " ++ candidate.last_name
    skills := candidate.skills.getD []
    experience_years := candidate.experience_years
    current_role := candidate.current_title
    current_company := candidate.current_company }

/-- A row of the `jobs` table. -/
structure JobRow where
  id : String
  organization_id : String
  data : Job
deriving DecidableEq, Repr

/-- A row of the `candidates` table. -/
structure CandidateRow where
  id : String
  organization_id : String
  data : Candidate
deriving DecidableEq, Repr

/-- The `fit_score_details` JSON written on an application: the five
sub-scores plus the `calculated_at` timestamp (the constant weights dict
is also stored but carries no information). -/
structure FitScoreDetails where
  scores : Scores
  calculated_at : ℕ
deriving DecidableEq, Repr

/-- A row of the `applications` table, restricted to the columns the
FitScore service reads or writes. -/
structure ApplicationRow where
  id : ℕ
  job_id : String
  candidate_id : String
  organization_id : String
  fit_score : Option ℚ
  fit_score_details : Option FitScoreDetails
deriving DecidableEq, Repr

/-- The database state visible to the service: the three tables in storage
order, plus the id the next inserted application receives. -/
structure DB where
  jobs : List JobRow
  candidates : List CandidateRow
  applications : List ApplicationRow
  next_app_id : ℕ
deriving DecidableEq, Repr

/-- The `FitScoreResponse` schema returned by `calculate_fit_score`. -/
structure FitScoreResponse where
  application_id : ℕ
  job_id : String
  candidate_id : String
  overall_score : ℚ
  skill_match : ℚ
  experience_match : ℚ
  education_match : ℚ
  location_match : ℚ
  culture_fit : ℚ
  breakdown : Breakdown
  recommendations : List Recommendation
  generated_at : ℕ
deriving DecidableEq, Repr

/-- Replace the first list entry satisfying `p` by `f` of it (the
SQLAlchemy pattern of mutating the object returned by `.first()`). -/
def updateFirst (p : ApplicationRow → Bool) (f : ApplicationRow → ApplicationRow) :
    List ApplicationRow → List ApplicationRow
  | [] => []
  | a :: rest => if p a then f a :: rest else a :: updateFirst p f rest

/-- The five sub-score computations of `calculate_fit_score`. -/
def computeScores (job : Job) (candidate : Candidate) (judgment : Option (Option ℚ)) :
    Scores :=
  { skill_match := calculate_skill_match job candidate
    experience_match := calculate_experience_match job candidate
    education_match := calculate_education_match job candidate
    location_match := calculate_location_match job candidate
    culture_fit := calculate_culture_fit job candidate judgment }

/-- `FitScoreService.calculate_fit_score`: look up the job and the
candidate (scoped to the organization), raise `ValueError` (`none`) when
either is missing, compute the five sub-scores and the weighted overall
score, generate recommendations, then update — or insert — the
application row for the pair with the score and details and commit,
returning the response.  `judgment` is the external culture-fit call and
`now` the wall clock (`datetime.utcnow()`). -/
def calculate_fit_score (db : DB) (job_id candidate_id organization_id : String)
    (judgment : Option (Option ℚ)) (now : ℕ) :
    Option (FitScoreResponse × DB) :=
  match db.jobs.find? (fun j => j.id == job_id && j.organization_id == organization_id),
        db.candidates.find? (fun c => c.id == candidate_id && c.organization_id == organization_id) with
  | some jrow, some crow =>
    let job := jrow.data
    let candidate := crow.data
    let scores := computeScores job candidate judgment
    let overall_score := overall_of scores
    let recommendations := generate_recommendations job candidate scores
    let details : FitScoreDetails := { scores := scores, calculated_at := now }
    let isPair : ApplicationRow → Bool :=
      fun a => a.job_id == job_id && a.candidate_id == candidate_id
    let existing := db.applications.find? isPair
    let app_id := match existing with
      | some a => a.id
      | none => db.next_app_id
    let applications' :=
      match existing with
      | some _ =>
        updateFirst isPair
          (fun a => { a with fit_score := some overall_score, fit_score_details := some details })
          db.applications
      | none =>
        db.applications ++
          [{ id := db.next_app_id, job_id := job_id, candidate_id := candidate_id,
             organization_id := organization_id,
             fit_score := some overall_score, fit_score_details := some details }]
    let db' : DB :=
      { db with applications := applications',
                next_app_id := match existing with
                  | some _ => db.next_app_id
                  | none => db.next_app_id + 1 }
    some
      ({ application_id := app_id
         job_id := job_id
         candidate_id := candidate_id
         overall_score := overall_score
         skill_match := scores.skill_match
         experience_match := scores.experience_match
         education_match := scores.education_match
         location_match := scores.location_match
         culture_fit := scores.culture_fit
         breakdown := get_score_breakdown job candidate
         recommendations := recommendations
         generated_at := now }, db')
  | _, _ => none

/-- One entry of the `get_top_candidates` result list. -/
structure TopCandidateEntry where
  candidate : CandidateRow
  application : ApplicationRow
  fit_score : ℚ
  fit_score_details : Option FitScoreDetails
deriving DecidableEq, Repr

/-- The sort key of `order_by(Application.fit_score.desc())`; rows the
ranking claims range over carry a non-null score, for which the default
is irrelevant. -/
def scoreKey (a : ApplicationRow) : ℚ := a.fit_score.getD 0

/-- Stable insertion of a row into the sorted-descending list of the rows
stored after it: the row goes before the first later-stored row whose key
does not exceed its own, so equal keys keep storage order. -/
def insertByScoreDesc (a : ApplicationRow) : List ApplicationRow → List ApplicationRow
  | [] => [a]
  | b :: rest => if scoreKey b ≤ scoreKey a then a :: b :: rest else b :: insertByScoreDesc a rest

/-- `order_by(Application.fit_score.desc())` as a stable descending sort of
the stored rows. -/
def sortByScoreDesc : List ApplicationRow → List ApplicationRow
  | [] => []
  | a :: rest => insertByScoreDesc a (sortByScoreDesc rest)

/-- `FitScoreService.get_top_candidates`: the applications of the job and
organization, ordered by stored fit score descending, limited to `limit`
rows, each joined with its candidate (dropping rows whose candidate id
resolves to no candidate); a null stored score is reported as `0`. -/
def get_top_candidates (db : DB) (job_id organization_id : String) (limit : ℕ) :
    List TopCandidateEntry :=
  let applications :=
    (sortByScoreDesc (db.applications.filter
      (fun a => a.job_id == job_id && a.organization_id == organization_id))).take limit
  applications.filterMap fun app =>
    match db.candidates.find? (fun c => c.id == app.candidate_id) with
    | some cand =>
      some { candidate := cand, application := app,
             fit_score := app.fit_score.getD 0,
             fit_score_details := app.fit_score_details }
    | none => none

/-! ### Range lemmas for the sub-scores -/

theorem matchSkill_nonneg (js : String) (l : List String) : 0 ≤ matchSkill js l := by
  induction l with
  | nil => simp [matchSkill]
  | cons cs rest ih =>
    simp only [matchSkill]
    split_ifs <;> first | exact ih | norm_num

theorem matchSkill_le_one (js : String) (l : List String) : matchSkill js l ≤ 1 := by
  induction l with
  | nil => simp [matchSkill]
  | cons cs rest ih =>
    simp only [matchSkill]
    split_ifs <;> first | exact ih | norm_num

theorem calculate_skill_match_mem_unit (job : Job) (candidate : Candidate) :
    0 ≤ calculate_skill_match job candidate ∧ calculate_skill_match job candidate ≤ 1 := by
  simp only [calculate_skill_match]
  split_ifs with h hpos
  · norm_num
  · have hsum : 0 ≤ ((jobSkillsOf job).map
        fun s => matchSkill (lowerStr s) (candidate.skills.getD [])).sum := by
      apply List.sum_nonneg
      intro x hx
      obtain ⟨s, -, rfl⟩ := List.mem_map.mp hx
      exact matchSkill_nonneg _ _
    exact ⟨le_min (div_nonneg hsum (le_of_lt hpos)) (by norm_num), min_le_right _ _⟩
  · norm_num

theorem calculate_experience_match_mem_unit (job : Job) (candidate : Candidate)
    (h : ∀ y, candidate.experience_years = some y → 0 ≤ y) :
    0 ≤ calculate_experience_match job candidate ∧
      calculate_experience_match job candidate ≤ 1 := by
  simp only [calculate_experience_match]
  split
  next r c hr hc =>
    have hc0 : 0 ≤ c := h c hc
    split_ifs with h0 hle
    · norm_num
    · norm_num
    · have hcpos : 0 < c := lt_of_le_of_ne hc0 (by
        intro hcontra
        exact h0 (Or.inr hcontra.symm))
      have hrc : c < r := lt_of_not_le hle
      have hrpos : 0 < r := lt_trans hcpos hrc
      exact ⟨div_nonneg hc0 (le_of_lt hrpos), le_of_lt ((div_lt_one hrpos).mpr hrc)⟩
  next => norm_num

theorem levelOf_nonneg (edu : String) : 0 ≤ levelOf edu := by
  simp only [levelOf, education_levels, List.foldl]
  split_ifs <;> norm_num

theorem calculate_education_match_mem_unit (job : Job) (candidate : Candidate) :
    0 ≤ calculate_education_match job candidate ∧
      calculate_education_match job candidate ≤ 1 := by
  simp only [calculate_education_match]
  split
  next r c _ _ =>
    by_cases hem : r.isEmpty ∨ c.isEmpty
    · simp only [if_pos hem]
      norm_num
    · simp only [if_neg hem]
      by_cases hle : levelOf r ≤ levelOf c
      · simp only [if_pos hle]
        norm_num
      · have hlt : levelOf c < levelOf r := lt_of_not_le hle
        have hpos : 0 < levelOf r := lt_of_le_of_lt (levelOf_nonneg c) hlt
        simp only [if_neg hle, if_pos hpos]
        exact ⟨div_nonneg (levelOf_nonneg c) (le_of_lt hpos),
          le_of_lt ((div_lt_one hpos).mpr hlt)⟩
  next => norm_num

theorem calculate_location_match_mem_unit (job : Job) (candidate : Candidate) :
    0 ≤ calculate_location_match job candidate ∧
      calculate_location_match job candidate ≤ 1 := by
  simp only [calculate_location_match]
  split
  next => split_ifs <;> norm_num
  next => norm_num

theorem calculate_culture_fit_mem_unit (job : Job) (candidate : Candidate)
    (judgment : Option (Option ℚ)) :
    0 ≤ calculate_culture_fit job candidate judgment ∧
      calculate_culture_fit job candidate judgment ≤ 1 := by
  simp only [calculate_culture_fit]
  split
  next => norm_num
  next =>
    split_ifs
    · norm_num
    · split
      next => norm_num
      next => norm_num
      next q => exact ⟨le_max_left _ _, max_le (by norm_num) (min_le_left _ _)⟩

theorem overall_of_mem_unit (s : Scores)
    (h1 : 0 ≤ s.skill_match ∧ s.skill_match ≤ 1)
    (h2 : 0 ≤ s.experience_match ∧ s.experience_match ≤ 1)
    (h3 : 0 ≤ s.education_match ∧ s.education_match ≤ 1)
    (h4 : 0 ≤ s.location_match ∧ s.location_match ≤ 1)
    (h5 : 0 ≤ s.culture_fit ∧ s.culture_fit ≤ 1) :
    0 ≤ overall_of s ∧ overall_of s ≤ 1 := by
  obtain ⟨a1, b1⟩ := h1
  obtain ⟨a2, b2⟩ := h2
  obtain ⟨a3, b3⟩ := h3
  obtain ⟨a4, b4⟩ := h4
  obtain ⟨a5, b5⟩ := h5
  unfold overall_of
  constructor <;> nlinarith

/-- Concrete job with a 5-year experience requirement, used to exhibit the
behaviour of the scorer on a negative years-of-experience input. -/
def jobNegYears : Job :=
  { title := "Engineer"
    parsed_requirements := some { required_skills := none, experience_required := some 5, education_required := none }
    requirements := none
    description := none
    location := none }

/-- Concrete candidate with `experience_years = -10`, an invalid-argument
input the spec says is treated as absent. -/
def candNegYears : Candidate :=
  { first_name := "A", last_name := "B"
    skills := none
    experience_years := some (-10)
    resume_parsed := none
    location := none
    current_title := none
    current_company := none }

/-- C1, counterexample: on a candidate whose `experience_years` is `-10`
(an invalid value the claim says is treated as absent) against a 5-year
requirement, the experience sub-score is `-2`, and the overall weighted
score is also negative — neither lies in `[0,1]`.  The code divides the
negative value by the requirement instead of treating it as absent. -/
theorem claim_C1_counterexample :
    calculate_experience_match jobNegYears candNegYears < 0 ∧
      overall_of (computeScores jobNegYears candNegYears none) < 0 := by
  have hexp : calculate_experience_match jobNegYears candNegYears = -2 := by
    norm_num [calculate_experience_match, requiredExpOf, jobNegYears, candNegYears]
  have hskill : calculate_skill_match jobNegYears candNegYears = 0 := by
    norm_num [calculate_skill_match, jobSkillsOf, jobNegYears, candNegYears]
  have hedu : calculate_education_match jobNegYears candNegYears = 1/2 := by
    norm_num [calculate_education_match, requiredEduOf, candidateEduOf, jobNegYears, candNegYears]
  have hloc : calculate_location_match jobNegYears candNegYears = 1/2 := by
    norm_num [calculate_location_match, jobNegYears, candNegYears]
  have hcul : calculate_culture_fit jobNegYears candNegYears none = 1/2 := by
    norm_num [calculate_culture_fit, jobNegYears, candNegYears]
  refine ⟨by rw [hexp]; norm_num, ?_⟩
  simp only [overall_of, computeScores, hexp, hskill, hedu, hloc, hcul]
  norm_num

/-- C1, amended: provided the candidate's `experience_years`, when present,
is non-negative (the code does *not* treat negative values as absent —
they propagate into the experience ratio), every sub-score and the
weighted overall score lie in `[0,1]`, for arbitrary job data, candidate
data and culture-fit call outcome. -/
theorem claim_C1 (job : Job) (candidate : Candidate) (judgment : Option (Option ℚ))
    (h : ∀ y, candidate.experience_years = some y → 0 ≤ y) :
    (0 ≤ calculate_skill_match job candidate ∧ calculate_skill_match job candidate ≤ 1) ∧
    (0 ≤ calculate_experience_match job candidate ∧ calculate_experience_match job candidate ≤ 1) ∧
    (0 ≤ calculate_education_match job candidate ∧ calculate_education_match job candidate ≤ 1) ∧
    (0 ≤ calculate_location_match job candidate ∧ calculate_location_match job candidate ≤ 1) ∧
    (0 ≤ calculate_culture_fit job candidate judgment ∧ calculate_culture_fit job candidate judgment ≤ 1) ∧
    (0 ≤ overall_of (computeScores job candidate judgment) ∧
      overall_of (computeScores job candidate judgment) ≤ 1) := by
  refine ⟨calculate_skill_match_mem_unit job candidate,
    calculate_experience_match_mem_unit job candidate h,
    calculate_education_match_mem_unit job candidate,
    calculate_location_match_mem_unit job candidate,
    calculate_culture_fit_mem_unit job candidate judgment, ?_⟩
  exact overall_of_mem_unit _
    (calculate_skill_match_mem_unit job candidate)
    (calculate_experience_match_mem_unit job candidate h)
    (calculate_education_match_mem_unit job candidate)
    (calculate_location_match_mem_unit job candidate)
    (calculate_culture_fit_mem_unit job candidate judgment)

/-- Concrete candidate with every optional field absent. -/
def candAllAbsent : Candidate :=
  { first_name := "A", last_name := "B"
    skills := none
    experience_years := none
    resume_parsed := none
    location := none
    current_title := none
    current_company := none }

/-- Witness for the amended C1 at a concrete input (job with a 5-year
requirement, candidate with no data): the hypothesis holds vacuously and
all bounds evaluate. -/
theorem claim_C1_witness :
    (0 ≤ calculate_skill_match jobNegYears candAllAbsent ∧ calculate_skill_match jobNegYears candAllAbsent ≤ 1) ∧
    (0 ≤ calculate_experience_match jobNegYears candAllAbsent ∧ calculate_experience_match jobNegYears candAllAbsent ≤ 1) ∧
    (0 ≤ calculate_education_match jobNegYears candAllAbsent ∧ calculate_education_match jobNegYears candAllAbsent ≤ 1) ∧
    (0 ≤ calculate_location_match jobNegYears candAllAbsent ∧ calculate_location_match jobNegYears candAllAbsent ≤ 1) ∧
    (0 ≤ calculate_culture_fit jobNegYears candAllAbsent none ∧ calculate_culture_fit jobNegYears candAllAbsent none ≤ 1) ∧
    (0 ≤ overall_of (computeScores jobNegYears candAllAbsent none) ∧
      overall_of (computeScores jobNegYears candAllAbsent none) ≤ 1) :=
  claim_C1 jobNegYears candAllAbsent none (fun y hy => by simp [candAllAbsent] at hy)

/-! ### C2: the skill-match sub-score -/

/-- The qualifying test of the skill loop: candidate skill `cs` qualifies
for the (lower-cased) required skill `js` when it matches exactly or by
substring containment in either direction, case-insensitively. -/
def qualifies (js : String) (cs : String) : Bool :=
  js == lowerStr cs || substrOf js (lowerStr cs) || substrOf (lowerStr cs) js

/-- The contribution of one required skill, phrased as the amended claim
reads: the first candidate skill in list order that qualifies at all
decides the contribution — `1` when that very skill is an exact match,
`0.8` when it only matches by substring. -/
def firstQualifyingContribution (js : String) (cands : List String) : ℚ :=
  match cands.find? (qualifies js) with
  | none => 0
  | some cs => if js = lowerStr cs then 1 else 4/5

theorem matchSkill_eq_firstQualifying (js : String) (l : List String) :
    matchSkill js l = firstQualifyingContribution js l := by
  induction l with
  | nil => simp [matchSkill, firstQualifyingContribution]
  | cons cs rest ih =>
    by_cases h1 : js = lowerStr cs
    · simp [matchSkill, firstQualifyingContribution, qualifies, List.find?, h1]
    · by_cases h2 : (substrOf js (lowerStr cs) || substrOf (lowerStr cs) js) = true
      · have hq : qualifies js cs = true := by
          simp only [Bool.or_eq_true] at h2
          simp only [qualifies, Bool.or_eq_true, beq_iff_eq]
          tauto
        simp [matchSkill, firstQualifyingContribution, List.find?, hq, h1, h2]
      · have hq : qualifies js cs = false := by
          simp only [Bool.or_eq_true, not_or, Bool.not_eq_true] at h2
          simp [qualifies, h1, h2.1, h2.2]
        simp [matchSkill, firstQualifyingContribution, List.find?, hq, h1, h2, ih]

/-- The amended skill-match formula: `0` when either list is empty,
otherwise the per-required-skill first-qualifying contributions summed,
divided by the number of required skills and clamped to at most `1`. -/
def skillMatchSpec (job : Job) (candidate : Candidate) : ℚ :=
  let required := jobSkillsOf job
  let cands := candidate.skills.getD []
  if required = [] ∨ cands = [] then 0
  else min ((required.map fun s => firstQualifyingContribution (lowerStr s) cands).sum
      / (required.length : ℚ)) 1

/-- C2, amended: the skill sub-score equals matched-count divided by the
number of required skills, clamped to at most `1.0`, with `0.0` when
either list is empty — but each required skill's contribution is decided
by the *first qualifying candidate skill in list order* (`1.0` when that
skill is an exact case-insensitive match, `0.8` when it matches only by
substring): exactness is preferred only within each candidate skill, not
across the whole candidate list. -/
theorem claim_C2 (job : Job) (candidate : Candidate) :
    calculate_skill_match job candidate = skillMatchSpec job candidate := by
  simp only [calculate_skill_match, skillMatchSpec, matchSkill_eq_firstQualifying]
  cases hreq : jobSkillsOf job with
  | nil => simp
  | cons a l =>
    cases hcs : candidate.skills.getD [] with
    | nil => simp
    | cons b m =>
      have hpos : (0 : ℚ) < (l.length : ℚ) + 1 := by positivity
      simp [hpos]

/-- The skill-match formula as the claim states it: for each required
skill, the exact-match check is performed across *all* candidate skills
before any substring fallback is tried. -/
def exactFirstContribution (js : String) (cands : List String) : ℚ :=
  if cands.any fun cs => js == lowerStr cs then 1
  else if cands.any fun cs => substrOf js (lowerStr cs) || substrOf (lowerStr cs) js then 4/5
  else 0

/-- The claim's version of the whole skill sub-score. -/
def skillMatchClaim (job : Job) (candidate : Candidate) : ℚ :=
  let required := jobSkillsOf job
  let cands := candidate.skills.getD []
  if required = [] ∨ cands = [] then 0
  else min ((required.map fun s => exactFirstContribution (lowerStr s) cands).sum
      / (required.length : ℚ)) 1

/-- Job requiring the single skill `python`. -/
def jobPython : Job :=
  { title := "Engineer"
    parsed_requirements := some { required_skills := some ["python"], experience_required := none, education_required := none }
    requirements := none
    description := none
    location := none }

/-- Candidate whose skill list holds `pythonscript` before `python`. -/
def candPythonScript : Candidate :=
  { first_name := "A", last_name := "B"
    skills := some ["pythonscript", "python"]
    experience_years := none
    resume_parsed := none
    location := none
    current_title := none
    current_company := none }

/-- C2, counterexample: required `["python"]` against candidate
`["pythonscript", "python"]`.  The claim's exact-before-substring search
across all candidate skills yields `1.0` (the exact match `python` is
found), but the code stops at the first qualifying candidate skill
`pythonscript`, a substring match, and returns `0.8`. -/
theorem claim_C2_counterexample :
    skillMatchClaim jobPython candPythonScript = 1 ∧
      calculate_skill_match jobPython candPythonScript = 4/5 ∧
      calculate_skill_match jobPython candPythonScript ≠
        skillMatchClaim jobPython candPythonScript := by
  refine ⟨?_, ?_, ?_⟩
  · simp +decide [skillMatchClaim, jobSkillsOf, jobPython, candPythonScript, exactFirstContribution]
  · simp +decide [calculate_skill_match, jobSkillsOf, jobPython, candPythonScript, matchSkill]
    norm_num
  · intro h
    rw [show skillMatchClaim jobPython candPythonScript = 1 by
          simp +decide [skillMatchClaim, jobSkillsOf, jobPython, candPythonScript, exactFirstContribution],
        show calculate_skill_match jobPython candPythonScript = 4/5 by
          simp +decide [calculate_skill_match, jobSkillsOf, jobPython, candPythonScript, matchSkill]
          norm_num] at h
    norm_num at h

/-! ### C3: the experience-match sub-score -/

/-- C3, amended: the experience sub-score is `0.5` when either the
job's minimum-years requirement or the candidate's years value is absent
*or equal to zero* (the code's truthiness guard treats `0` like `None`);
when both are present and nonzero it is `1.0` if candidate years ≥
required years and the ratio candidate/required otherwise.  In particular
a candidate with `0` years against a positive requirement scores `0.5`,
not `0.0`, and a requirement of `0` yields `0.5`, not `1.0`. -/
theorem claim_C3 (job : Job) (candidate : Candidate) :
    (requiredExpOf job = none → calculate_experience_match job candidate = 1/2) ∧
    (candidate.experience_years = none → calculate_experience_match job candidate = 1/2) ∧
    (requiredExpOf job = some 0 → calculate_experience_match job candidate = 1/2) ∧
    (candidate.experience_years = some 0 → calculate_experience_match job candidate = 1/2) ∧
    (∀ r c, requiredExpOf job = some r → candidate.experience_years = some c →
      r ≠ 0 → c ≠ 0 →
      (r ≤ c → calculate_experience_match job candidate = 1) ∧
      (c < r → calculate_experience_match job candidate = c / r)) := by
  refine ⟨?_, ?_, ?_, ?_, ?_⟩
  · intro h
    simp [calculate_experience_match, h]
  · intro h
    cases hr : requiredExpOf job <;> simp [calculate_experience_match, h, hr]
  · intro h
    cases hc : candidate.experience_years <;> simp [calculate_experience_match, h, hc]
  · intro h
    cases hr : requiredExpOf job <;> simp [calculate_experience_match, h, hr]
  · intro r c hr hc hr0 hc0
    constructor
    · intro hle
      simp [calculate_experience_match, hr, hc, hr0, hc0, hle]
    · intro hlt
      simp [calculate_experience_match, hr, hc, hr0, hc0, not_le_of_lt hlt]

/-- Job whose parsed requirements demand 5 years of experience. -/
def jobExp5 : Job :=
  { title := "Engineer"
    parsed_requirements := some { required_skills := none, experience_required := some 5, education_required := none }
    requirements := none
    description := none
    location := none }

/-- Job whose parsed requirements demand 0 years of experience. -/
def jobExp0 : Job :=
  { title := "Engineer"
    parsed_requirements := some { required_skills := none, experience_required := some 0, education_required := none }
    requirements := none
    description := none
    location := none }

/-- Candidate with exactly 0 years of experience (present, not absent). -/
def candYears0 : Candidate :=
  { first_name := "A", last_name := "B"
    skills := none
    experience_years := some 0
    resume_parsed := none
    location := none
    current_title := none
    current_company := none }

/-- Candidate with 3 years of experience. -/
def candYears3 : Candidate :=
  { first_name := "A", last_name := "B"
    skills := none
    experience_years := some 3
    resume_parsed := none
    location := none
    current_title := none
    current_company := none }

/-- C3, counterexample: a candidate with `0` years against a requirement of
`5` scores `0.5`, not the `0.0` the claim states; and a candidate with `3`
years against a requirement of `0` scores `0.5`, not the `1.0` the claim
states for a satisfied requirement of `0` — the code's falsy-zero guard
fires first in both cases. -/
theorem claim_C3_counterexample :
    calculate_experience_match jobExp5 candYears0 = 1/2 ∧
      calculate_experience_match jobExp5 candYears0 ≠ 0 ∧
      calculate_experience_match jobExp0 candYears3 = 1/2 ∧
      calculate_experience_match jobExp0 candYears3 ≠ 1 := by
  have h1 : calculate_experience_match jobExp5 candYears0 = 1/2 := by
    norm_num [calculate_experience_match, requiredExpOf, jobExp5, candYears0]
  have h2 : calculate_experience_match jobExp0 candYears3 = 1/2 := by
    norm_num [calculate_experience_match, requiredExpOf, jobExp0, candYears3]
  refine ⟨h1, ?_, h2, ?_⟩ <;> first
    | (rw [h1]; norm_num)
    | (rw [h2]; norm_num)

/-- Witness for the amended C3 at a concrete input: required `5`,
candidate `3` — both nonzero, candidate short of the requirement — gives
the ratio `3/5`. -/
theorem claim_C3_witness :
    calculate_experience_match jobExp5 candYears3 = 3/5 :=
  ((claim_C3 jobExp5 candYears3).2.2.2.2 5 3 rfl rfl
    (by norm_num) (by norm_num)).2 (by norm_num)

/-! ### C4: the education-match sub-score -/

theorem foldl_overwrite_eq_find_rev (p : String × ℚ → Bool) (l : List (String × ℚ)) :
    ∀ acc : ℚ,
      l.foldl (fun acc lv => if p lv then lv.2 else acc) acc =
        match l.reverse.find? p with
        | some lv => lv.2
        | none => acc := by
  induction l using List.reverseRecOn with
  | nil => intro acc; simp
  | append_singleton l x ih =>
    intro acc
    rw [List.foldl_append, List.reverse_append]
    simp only [List.foldl_cons, List.foldl_nil, List.reverse_cons, List.reverse_nil,
      List.nil_append, List.singleton_append]
    cases hx : p x
    · rw [List.find?_cons_of_neg _ (by simp [hx])]
      simp [hx, ih]
    · rw [List.find?_cons_of_pos _ hx]
      simp [hx]

/-- The education level a text resolves to, phrased as the amended claim
reads: the value of the *last* vocabulary entry, in the dict's iteration
order (`high school, associate, bachelor, master, phd, mba`), contained in
the lower-cased text — equivalently the first match when the vocabulary is
scanned in reverse; `0` when nothing matches. -/
def lastMatchLevel (edu : String) : ℚ :=
  match education_levels.reverse.find? (fun lv => substrOf lv.1 (lowerStr edu)) with
  | some lv => lv.2
  | none => 0

theorem levelOf_eq_lastMatchLevel (edu : String) : levelOf edu = lastMatchLevel edu := by
  unfold levelOf lastMatchLevel
  exact foldl_overwrite_eq_find_rev _ education_levels 0

theorem lastMatchLevel_nonneg (edu : String) : 0 ≤ lastMatchLevel edu :=
  levelOf_eq_lastMatchLevel edu ▸ levelOf_nonneg edu

/-- The amended education sub-score: neutral `0.5` when either side is
missing (or empty text); otherwise `1.0` when the candidate's last-match
level is at least the job's — in particular whenever the required text
resolves to level `0` — and the ratio candidate-level / required-level
otherwise (the code's division-guard branch is unreachable, since a
failed `≥` comparison forces a positive required level). -/
def educationMatchSpec (job : Job) (candidate : Candidate) : ℚ :=
  match requiredEduOf job, candidateEduOf candidate with
  | some r, some c =>
    if r.isEmpty ∨ c.isEmpty then 1/2
    else if lastMatchLevel r ≤ lastMatchLevel c then 1
    else lastMatchLevel c / lastMatchLevel r
  | _, _ => 1/2

/-- C4, amended: the education sub-score maps both present texts to levels
by substring containment against the vocabulary with *last*-match-wins
semantics in dict order, scores `1.0` when candidate level ≥ required
level — including when the required text resolves to level `0` — and the
level ratio otherwise; `0.5` when either side is missing. -/
theorem claim_C4 (job : Job) (candidate : Candidate) :
    calculate_education_match job candidate = educationMatchSpec job candidate := by
  simp only [calculate_education_match, educationMatchSpec, levelOf_eq_lastMatchLevel]
  split
  next r c _ _ =>
    by_cases hem : r.isEmpty ∨ c.isEmpty
    · simp [hem]
    · simp only [if_neg hem]
      by_cases hle : lastMatchLevel r ≤ lastMatchLevel c
      · simp [hle]
      · have hpos : 0 < lastMatchLevel r :=
          lt_of_le_of_lt (lastMatchLevel_nonneg c) (lt_of_not_le hle)
        simp [hle, hpos]
  next => rfl

/-- The vocabulary in the order the claim lists it
(`mba` before `master`). -/
def education_levels_claim : List (String × ℚ) :=
  [("high school", 1), ("associate", 2), ("bachelor", 3), ("mba", 4), ("master", 4), ("phd", 5)]

/-- The claim's level resolution: first-match-wins over its vocabulary
order. -/
def firstMatchLevel (edu : String) : ℚ :=
  match education_levels_claim.find? (fun lv => substrOf lv.1 (lowerStr edu)) with
  | some lv => lv.2
  | none => 0

/-- The education sub-score as the claim states it: first-match-wins
levels, `0` when the required level resolves to `0`, else `1.0` when
candidate level ≥ required level and the ratio otherwise. -/
def educationMatchClaim (job : Job) (candidate : Candidate) : ℚ :=
  match requiredEduOf job, candidateEduOf candidate with
  | some r, some c =>
    if r.isEmpty ∨ c.isEmpty then 1/2
    else if firstMatchLevel r = 0 then 0
    else if firstMatchLevel r ≤ firstMatchLevel c then 1
    else firstMatchLevel c / firstMatchLevel r
  | _, _ => 1/2

/-- Job requiring education `"bachelor and master"` — a text containing
two vocabulary entries. -/
def jobEduBM : Job :=
  { title := "Engineer"
    parsed_requirements := some { required_skills := none, experience_required := none,
                                  education_required := some "bachelor and master" }
    requirements := none
    description := none
    location := none }

/-- Candidate whose parsed resume lists education `"bachelor"`. -/
def candEduB : Candidate :=
  { first_name := "A", last_name := "B"
    skills := none
    experience_years := none
    resume_parsed := some { education := some ["bachelor"], summary := none }
    location := none
    current_title := none
    current_company := none }

/-- C4, counterexample: on required text `"bachelor and master"` (claim:
first match `bachelor`, level 3) versus candidate `"bachelor"` (level 3)
the claim yields `1.0`, but the code's loop lets the later `master` entry
overwrite the required level to 4 and returns `3/4`. -/
theorem claim_C4_counterexample :
    educationMatchClaim jobEduBM candEduB = 1 ∧
      calculate_education_match jobEduBM candEduB = 3/4 ∧
      calculate_education_match jobEduBM candEduB ≠ educationMatchClaim jobEduBM candEduB := by
  have hr : levelOf "bachelor and master" = 4 := by
    simp +decide [levelOf, education_levels]
  have hc : levelOf "bachelor" = 3 := by
    simp +decide [levelOf, education_levels]
  have hrf : firstMatchLevel "bachelor and master" = 3 := by
    simp +decide [firstMatchLevel, education_levels_claim]
  have hcf : firstMatchLevel "bachelor" = 3 := by
    simp +decide [firstMatchLevel, education_levels_claim]
  have h1 : educationMatchClaim jobEduBM candEduB = 1 := by
    simp +decide [educationMatchClaim, requiredEduOf, candidateEduOf, jobEduBM, candEduB, hrf, hcf]
  have h2 : calculate_education_match jobEduBM candEduB = 3/4 := by
    simp +decide [calculate_education_match, requiredEduOf, candidateEduOf, jobEduBM, candEduB, hr, hc]
  refine ⟨h1, h2, ?_⟩
  rw [h1, h2]
  norm_num

/-! ### C5: the location-match sub-score -/

/-- Job located `"Remote"`. -/
def jobRemote : Job :=
  { title := "Engineer", parsed_requirements := none, requirements := none,
    description := none, location := some "Remote" }

/-- Candidate located `"Remote"`. -/
def candRemote : Candidate :=
  { first_name := "A", last_name := "B", skills := none, experience_years := none,
    resume_parsed := none, location := some "Remote", current_title := none,
    current_company := none }

/-- Job located `"NYC"`. -/
def jobNYC : Job :=
  { title := "Engineer", parsed_requirements := none, requirements := none,
    description := none, location := some "NYC" }

/-- Candidate located `"LA"`. -/
def candLA : Candidate :=
  { first_name := "A", last_name := "B", skills := none, experience_years := none,
    resume_parsed := none, location := some "LA", current_title := none,
    current_company := none }

/-- C5, confirmed: with both location strings present (and non-empty, the
code's notion of presence), the normalized strings are checked in the
order equal → `1.0`, containment → `0.8`, `"remote"` substring → `0.9`,
otherwise `0.3`; a missing (or empty) string on either side yields `0.5`;
and in particular job `"Remote"` versus candidate `"Remote"` scores `1.0`
because the exact-match case fires before the remote case. -/
theorem claim_C5 (job : Job) (candidate : Candidate) :
    (job.location = none → calculate_location_match job candidate = 1/2) ∧
    (candidate.location = none → calculate_location_match job candidate = 1/2) ∧
    (∀ j c, job.location = some j → candidate.location = some c →
      (j.isEmpty ∨ c.isEmpty) → calculate_location_match job candidate = 1/2) ∧
    (∀ j c, job.location = some j → candidate.location = some c →
      ¬j.isEmpty → ¬c.isEmpty →
      (trimStr (lowerStr j) = trimStr (lowerStr c) →
        calculate_location_match job candidate = 1) ∧
      (trimStr (lowerStr j) ≠ trimStr (lowerStr c) →
        (substrOf (trimStr (lowerStr j)) (trimStr (lowerStr c)) ∨
         substrOf (trimStr (lowerStr c)) (trimStr (lowerStr j))) →
        calculate_location_match job candidate = 4/5) ∧
      (trimStr (lowerStr j) ≠ trimStr (lowerStr c) →
        ¬(substrOf (trimStr (lowerStr j)) (trimStr (lowerStr c)) ∨
          substrOf (trimStr (lowerStr c)) (trimStr (lowerStr j))) →
        (substrOf "remote" (trimStr (lowerStr j)) ∨
         substrOf "remote" (trimStr (lowerStr c))) →
        calculate_location_match job candidate = 9/10) ∧
      (trimStr (lowerStr j) ≠ trimStr (lowerStr c) →
        ¬(substrOf (trimStr (lowerStr j)) (trimStr (lowerStr c)) ∨
          substrOf (trimStr (lowerStr c)) (trimStr (lowerStr j))) →
        ¬(substrOf "remote" (trimStr (lowerStr j)) ∨
          substrOf "remote" (trimStr (lowerStr c))) →
        calculate_location_match job candidate = 3/10)) ∧
    calculate_location_match jobRemote candRemote = 1 := by
  refine ⟨?_, ?_, ?_, ?_, ?_⟩
  · intro h
    simp [calculate_location_match, h]
  · intro h
    cases hj : job.location <;> simp [calculate_location_match, h, hj]
  · intro j c hj hc hem
    simp only [calculate_location_match, hj, hc]
    rw [if_pos hem]
  · intro j c hj hc hje hce
    have hem : ¬((j.isEmpty : Prop) ∨ (c.isEmpty : Prop)) := not_or.mpr ⟨hje, hce⟩
    refine ⟨?_, ?_, ?_, ?_⟩
    · intro heq
      simp only [calculate_location_match, hj, hc]
      rw [if_neg hem, if_pos heq]
    · intro hne hsub
      simp only [calculate_location_match, hj, hc]
      rw [if_neg hem, if_neg hne, if_pos hsub]
    · intro hne hnsub hrem
      simp only [calculate_location_match, hj, hc]
      rw [if_neg hem, if_neg hne, if_neg hnsub, if_pos hrem]
    · intro hne hnsub hnrem
      simp only [calculate_location_match, hj, hc]
      rw [if_neg hem, if_neg hne, if_neg hnsub, if_neg hnrem]
  · simp +decide [calculate_location_match, jobRemote, candRemote]

/-- Witness for C5 at concrete inputs: `"NYC"` versus `"LA"` — no
relation between the normalized strings — scores `0.3`. -/
theorem claim_C5_witness : calculate_location_match jobNYC candLA = 3/10 :=
  ((claim_C5 jobNYC candLA).2.2.2.1 "NYC" "LA" rfl rfl
      (by decide) (by decide)).2.2.2 (by decide) (by decide) (by decide)

/-! ### C6: the culture-fit sub-score and degraded-mode behaviour -/

theorem culture_fit_of_failure (job : Job) (candidate : Candidate) :
    calculate_culture_fit job candidate none = 1/2 := by
  simp only [calculate_culture_fit]
  split
  · rfl
  · split_ifs <;> rfl

theorem culture_fit_of_unparsable (job : Job) (candidate : Candidate) :
    calculate_culture_fit job candidate (some none) = 1/2 := by
  simp only [calculate_culture_fit]
  split
  · rfl
  · split_ifs <;> rfl

/-- C6, confirmed: a parseable numeric reply `q` is clamped to
`max 0 (min 1 q)` and used as the culture sub-score, which always lies in
`[0,1]`; a raising/timed-out call (`none`) or an unparsable reply
(`some none`) yields the neutral `0.5` instead, the failure is not raised
(the entrypoint returns a full result exactly as often as with any other
judgment outcome), and every response produced under a failed call
carries culture-fit `0.5`. -/
theorem claim_C6 :
    (∀ (job : Job) (candidate : Candidate) (q : ℚ) (d : String),
      job.description = some d → ¬d.isEmpty → ¬(candidateSummaryOf candidate).isEmpty →
      calculate_culture_fit job candidate (some (some q)) = max 0 (min 1 q)) ∧
    (∀ (job : Job) (candidate : Candidate),
      calculate_culture_fit job candidate none = 1/2 ∧
      calculate_culture_fit job candidate (some none) = 1/2) ∧
    (∀ (job : Job) (candidate : Candidate) (judgment : Option (Option ℚ)),
      0 ≤ calculate_culture_fit job candidate judgment ∧
        calculate_culture_fit job candidate judgment ≤ 1) ∧
    (∀ (db : DB) (j c o : String) (judgment : Option (Option ℚ)) (now : ℕ),
      (calculate_fit_score db j c o judgment now).isSome =
        (calculate_fit_score db j c o (some (some (1/2))) now).isSome) ∧
    (∀ (db : DB) (j c o : String) (now : ℕ) (resp : FitScoreResponse) (db2 : DB),
      calculate_fit_score db j c o none now = some (resp, db2) →
      resp.culture_fit = 1/2) := by
  refine ⟨?_, ?_, ?_, ?_, ?_⟩
  · intro job candidate q d hd hde hse
    simp only [calculate_culture_fit, hd]
    rw [if_neg (not_or.mpr ⟨hde, hse⟩)]
  · intro job candidate
    exact ⟨culture_fit_of_failure job candidate, culture_fit_of_unparsable job candidate⟩
  · intro job candidate judgment
    exact calculate_culture_fit_mem_unit job candidate judgment
  · intro db j c o judgment now
    cases hj : db.jobs.find? (fun x => x.id == j && x.organization_id == o) <;>
      cases hc : db.candidates.find? (fun x => x.id == c && x.organization_id == o) <;>
        simp [calculate_fit_score, hj, hc]
  · intro db j c o now resp db2 h
    cases hj : db.jobs.find? (fun x => x.id == j && x.organization_id == o) with
    | none => simp [calculate_fit_score, hj] at h
    | some jrow =>
      cases hc : db.candidates.find? (fun x => x.id == c && x.organization_id == o) with
      | none => simp [calculate_fit_score, hj, hc] at h
      | some crow =>
        simp only [calculate_fit_score, hj, hc, Option.some.injEq, Prod.mk.injEq] at h
        have hresp := h.1
        rw [← hresp]
        simpa [computeScores] using culture_fit_of_failure jrow.data crow.data

/-- Job with a non-empty description. -/
def jobDesc : Job :=
  { title := "Engineer", parsed_requirements := none, requirements := none,
    description := some "We value collaboration", location := none }

/-- Candidate with a non-empty parsed-resume summary. -/
def candSummary : Candidate :=
  { first_name := "A", last_name := "B", skills := none, experience_years := none,
    resume_parsed := some { education := none, summary := some "Team player" },
    location := none, current_title := none, current_company := none }

/-- Witness for C6 at a concrete input: a parseable reply of `3/2` is
clamped to `1`. -/
theorem claim_C6_witness :
    calculate_culture_fit jobDesc candSummary (some (some (3/2))) = max 0 (min 1 (3/2)) :=
  claim_C6.1 jobDesc candSummary (3/2) "We value collaboration" rfl
    (by decide) (by decide)

/-! ### C7: recommendation generation -/

/-- The six rules of `_generate_recommendations` (the fallback apart),
each producing at most one message, in the fixed evaluation order the
spec gives. -/
def recommendationRules (job : Job) (candidate : Candidate) (scores : Scores) :
    List (Option Recommendation) :=
  [ if scores.skill_match < 7/10 ∧ ¬(missingSkillsOf job candidate).isEmpty
      then some (.skillGap ((missingSkillsOf job candidate).take 3)) else none,
    if scores.experience_match < 4/5 ∧
        candidate.experience_years.getD 0 <
          (match job.parsed_requirements with
           | some pr => pr.experience_required.getD 0
           | none => 0)
      then some (.experienceGap
        ((match job.parsed_requirements with
          | some pr => pr.experience_required.getD 0
          | none => 0) - candidate.experience_years.getD 0)) else none,
    if scores.culture_fit < 3/5 then some .cultureResearch else none,
    if 9/10 < scores.skill_match then some .skillPraise else none,
    if 9/10 < scores.experience_match then some .experiencePraise else none ]

theorem generate_recommendations_eq (job : Job) (candidate : Candidate) (scores : Scores) :
    generate_recommendations job candidate scores =
      (if (recommendationRules job candidate scores).reduceOption = []
       then [Recommendation.fallback]
       else (recommendationRules job candidate scores).reduceOption) := by
  by_cases hA : scores.skill_match < 7/10 <;>
    by_cases hB : (missingSkillsOf job candidate).isEmpty <;>
      by_cases hC : scores.experience_match < 4/5 <;>
        by_cases hD : candidate.experience_years.getD 0 <
            (match job.parsed_requirements with
             | some pr => pr.experience_required.getD 0
             | none => 0) <;>
          by_cases hE : scores.culture_fit < 3/5 <;>
            by_cases hF : 9/10 < scores.skill_match <;>
              by_cases hG : 9/10 < scores.experience_match <;>
                simp [generate_recommendations, recommendationRules, hA, hB, hC, hD, hE,
                  hF, hG, List.reduceOption]

/-- C7, confirmed: the recommendation list is the in-order concatenation
of the six rules' outputs — skill gap, experience gap, culture research,
skill praise, experience praise, each contributing at most one entry, and
the generic fallback exactly when all five rules were silent — truncated
to five entries (a no-op, since at most five are ever produced), so the
final list always has between 1 and 5 entries in rule order. -/
theorem claim_C7 (job : Job) (candidate : Candidate) (scores : Scores) :
    generate_recommendations job candidate scores =
      (if (recommendationRules job candidate scores).reduceOption = []
       then [Recommendation.fallback]
       else (recommendationRules job candidate scores).reduceOption) ∧
    1 ≤ (generate_recommendations job candidate scores).length ∧
    (generate_recommendations job candidate scores).length ≤ 5 := by
  refine ⟨generate_recommendations_eq job candidate scores, ?_, ?_⟩ <;>
    rw [generate_recommendations_eq job candidate scores]
  · split_ifs with h
    · simp
    · exact Nat.one_le_iff_ne_zero.mpr (by simpa [List.length_eq_zero] using h)
  · split_ifs with h
    · simp
    · calc (recommendationRules job candidate scores).reduceOption.length
          ≤ (recommendationRules job candidate scores).length :=
            List.reduceOption_length_le _
        _ ≤ 5 := by simp [recommendationRules]

/-! ### C8: determinism of the scoring entrypoint -/

/-- Every field of a `FitScoreResponse` except the `generated_at`
timestamp. -/
def respCore (r : FitScoreResponse) :
    ℕ × String × String × ℚ × ℚ × ℚ × ℚ × ℚ × ℚ × Breakdown × List Recommendation :=
  (r.application_id, r.job_id, r.candidate_id, r.overall_score, r.skill_match,
   r.experience_match, r.education_match, r.location_match, r.culture_fit,
   r.breakdown, r.recommendations)

/-- C8, amended: two calls to the scoring entrypoint on the same database
state with identical job, candidate and organization identifiers and an
identical culture-fit judgment agree on every field of the response
*except* `generated_at`, which records each call's wall-clock time (as
does the `calculated_at` stored in the persisted details) — so the results
are bit-identical only when the clock readings coincide, not
unconditionally as the claim states. -/
theorem claim_C8 (db : DB) (j c o : String) (judgment : Option (Option ℚ)) (t1 t2 : ℕ) :
    (calculate_fit_score db j c o judgment t1).map (fun p => respCore p.1) =
      (calculate_fit_score db j c o judgment t2).map (fun p => respCore p.1) := by
  cases hj : db.jobs.find? (fun x => x.id == j && x.organization_id == o) <;>
    cases hc : db.candidates.find? (fun x => x.id == c && x.organization_id == o) <;>
      simp [calculate_fit_score, hj, hc, respCore]

/-- A minimal job record. -/
def jobJ : Job :=
  { title := "Engineer", parsed_requirements := none, requirements := none,
    description := none, location := none }

/-- A minimal candidate record. -/
def candC : Candidate :=
  { first_name := "A", last_name := "B", skills := none, experience_years := none,
    resume_parsed := none, location := none, current_title := none,
    current_company := none }

/-- A database holding one job `"j"` and one candidate `"c"` in
organization `"o"` and no applications. -/
def dbOnePair : DB :=
  { jobs := [{ id := "j", organization_id := "o", data := jobJ }]
    candidates := [{ id := "c", organization_id := "o", data := candC }]
    applications := []
    next_app_id := 1 }

/-- C8, counterexample: the same database, identifiers and deterministic
culture-fit judgment, called at clock times `0` and `1`, give responses
whose `generated_at` fields are `0` and `1` respectively — the two
`FitScoreResponse` values are not bit-identical. -/
theorem claim_C8_counterexample :
    ((calculate_fit_score dbOnePair "j" "c" "o" (some (some (1/2))) 0).map
        fun p => p.1.generated_at) = some 0 ∧
    ((calculate_fit_score dbOnePair "j" "c" "o" (some (some (1/2))) 1).map
        fun p => p.1.generated_at) = some 1 ∧
    calculate_fit_score dbOnePair "j" "c" "o" (some (some (1/2))) 0 ≠
      calculate_fit_score dbOnePair "j" "c" "o" (some (some (1/2))) 1 := by
  have h0 : ((calculate_fit_score dbOnePair "j" "c" "o" (some (some (1/2))) 0).map
      fun p => p.1.generated_at) = some 0 := by
    simp +decide [calculate_fit_score, dbOnePair, List.find?]
  have h1 : ((calculate_fit_score dbOnePair "j" "c" "o" (some (some (1/2))) 1).map
      fun p => p.1.generated_at) = some 1 := by
    simp +decide [calculate_fit_score, dbOnePair, List.find?]
  refine ⟨h0, h1, fun h => ?_⟩
  have hts := congrArg (Option.map fun p => p.1.generated_at) h
  rw [h0, h1] at hts
  simp at hts

/-! ### C9: side effects and input mutation of the entrypoint -/

theorem mem_updateFirst {p : ApplicationRow → Bool} {f : ApplicationRow → ApplicationRow}
    {l : List ApplicationRow} {a : ApplicationRow} (h : a ∈ updateFirst p f l) :
    a ∈ l ∨ ∃ b, b ∈ l ∧ p b ∧ a = f b := by
  induction l with
  | nil => simp [updateFirst] at h
  | cons x rest ih =>
    simp only [updateFirst] at h
    by_cases hx : p x
    · rw [if_pos hx] at h
      rcases List.mem_cons.mp h with h1 | h1
      · exact Or.inr ⟨x, List.mem_cons_self x rest, hx, h1⟩
      · exact Or.inl (List.mem_cons_of_mem x h1)
    · rw [if_neg hx] at h
      rcases List.mem_cons.mp h with h1 | h1
      · exact Or.inl (h1 ▸ List.mem_cons_self x rest)
      · rcases ih h1 with h2 | ⟨b, hb, hpb, rfl⟩
        · exact Or.inl (List.mem_cons_of_mem x h2)
        · exact Or.inr ⟨b, List.mem_cons_of_mem x hb, hpb, rfl⟩

theorem length_updateFirst (p : ApplicationRow → Bool) (f : ApplicationRow → ApplicationRow)
    (l : List ApplicationRow) : (updateFirst p f l).length = l.length := by
  induction l with
  | nil => rfl
  | cons x rest ih =>
    simp only [updateFirst]
    split_ifs <;> simp [ih]

/-- C9, amended: the entrypoint does not touch the `jobs` or `candidates`
tables (its inputs are never mutated) and holds no state of its own
between calls — the outcome is a function of the database state and the
arguments alone — but it is *not* side-effect-free: it writes the score
into the application row for the pair, updating the existing row in place
when one exists (rather than creating a new result row) or inserting one
row otherwise, and commits that change.  Every row of the resulting
applications table is either an untouched original row or a row for the
scored (job, candidate) pair. -/
theorem claim_C9 (db : DB) (j c o : String) (judgment : Option (Option ℚ)) (now : ℕ)
    (resp : FitScoreResponse) (db' : DB)
    (h : calculate_fit_score db j c o judgment now = some (resp, db')) :
    db'.jobs = db.jobs ∧ db'.candidates = db.candidates ∧
    (db'.applications.length = db.applications.length ∨
      db'.applications.length = db.applications.length + 1) ∧
    (∀ a ∈ db'.applications, (a.job_id = j ∧ a.candidate_id = c) ∨ a ∈ db.applications) := by
  cases hj : db.jobs.find? (fun x => x.id == j && x.organization_id == o) with
  | none => simp [calculate_fit_score, hj] at h
  | some jrow =>
    cases hc : db.candidates.find? (fun x => x.id == c && x.organization_id == o) with
    | none => simp [calculate_fit_score, hj, hc] at h
    | some crow =>
      cases hex : db.applications.find? (fun a => a.job_id == j && a.candidate_id == c) with
      | some a0 =>
        simp only [calculate_fit_score, hj, hc, hex, Option.some.injEq, Prod.mk.injEq] at h
        obtain ⟨-, hdb⟩ := h
        subst hdb
        refine ⟨rfl, rfl, Or.inl (length_updateFirst _ _ _), ?_⟩
        intro a ha
        rcases mem_updateFirst ha with h1 | ⟨b, hb, hpb, rfl⟩
        · exact Or.inr h1
        · simp only [Bool.and_eq_true, beq_iff_eq] at hpb
          exact Or.inl ⟨hpb.1, hpb.2⟩
      | none =>
        simp only [calculate_fit_score, hj, hc, hex, Option.some.injEq, Prod.mk.injEq] at h
        obtain ⟨-, hdb⟩ := h
        subst hdb
        refine ⟨rfl, rfl, Or.inr (by simp), ?_⟩
        intro a ha
        rcases List.mem_append.mp ha with h1 | h1
        · exact Or.inr h1
        · rcases List.mem_singleton.mp h1 with rfl
          exact Or.inl ⟨rfl, rfl⟩

/-- C9, counterexample: scoring the pair on `dbOnePair` succeeds and
returns a database state different from the input state — an application
row carrying the score has been inserted and committed, so the entrypoint
does have a side effect on shared state. -/
theorem claim_C9_counterexample :
    (calculate_fit_score dbOnePair "j" "c" "o" none 0).isSome ∧
      (calculate_fit_score dbOnePair "j" "c" "o" none 0).map Prod.snd ≠ some dbOnePair := by
  constructor
  · simp +decide [calculate_fit_score, dbOnePair, List.find?]
  · simp +decide [calculate_fit_score, dbOnePair, List.find?, jobJ, candC]

/-- The five sub-scores of the `dbOnePair` pair. -/
def scoresScored : Scores :=
  { skill_match := 0, experience_match := 1/2, education_match := 1/2,
    location_match := 1/2, culture_fit := 1/2 }

/-- The response the entrypoint returns on `dbOnePair` at clock `0` with a
failed culture-fit call. -/
def respScored : FitScoreResponse :=
  { application_id := 1, job_id := "j", candidate_id := "c",
    overall_score := 13/40, skill_match := 0, experience_match := 1/2,
    education_match := 1/2, location_match := 1/2, culture_fit := 1/2,
    breakdown := { title := "Engineer", required_skills := [], experience_required := 0,
                   name := "A B", skills := [], experience_years := none,
                   current_role := none, current_company := none },
    recommendations := [.cultureResearch], generated_at := 0 }

/-- The application row that call inserts. -/
def appScored : ApplicationRow :=
  { id := 1, job_id := "j", candidate_id := "c", organization_id := "o",
    fit_score := some (13/40),
    fit_score_details := some { scores := scoresScored, calculated_at := 0 } }

/-- The database state after that call. -/
def dbScored : DB :=
  { jobs := [{ id := "j", organization_id := "o", data := jobJ }]
    candidates := [{ id := "c", organization_id := "o", data := candC }]
    applications := [appScored]
    next_app_id := 2 }

/-- Witness for the amended C9 at the concrete call on `dbOnePair`. -/
theorem claim_C9_witness :
    dbScored.jobs = dbOnePair.jobs ∧ dbScored.candidates = dbOnePair.candidates ∧
    (dbScored.applications.length = dbOnePair.applications.length ∨
      dbScored.applications.length = dbOnePair.applications.length + 1) ∧
    (∀ a ∈ dbScored.applications,
      (a.job_id = "j" ∧ a.candidate_id = "c") ∨ a ∈ dbOnePair.applications) :=
  claim_C9 dbOnePair "j" "c" "o" none 0 respScored dbScored (by
    simp +decide [calculate_fit_score, dbOnePair, jobJ, candC, respScored, dbScored,
      scoresScored, appScored,
      computeScores, overall_of, calculate_skill_match, calculate_experience_match,
      calculate_education_match, calculate_location_match, calculate_culture_fit,
      generate_recommendations, missingSkillsOf, get_score_breakdown, jobSkillsOf,
      requiredExpOf, requiredEduOf, candidateEduOf, candidateSummaryOf, List.find?]
    norm_num)

/-! ### C10: the ranking query -/

theorem mem_insertByScoreDesc {a x : ApplicationRow} :
    ∀ {l}, x ∈ insertByScoreDesc a l → x = a ∨ x ∈ l := by
  intro l
  induction l with
  | nil =>
    intro h
    simpa [insertByScoreDesc] using h
  | cons b rest ih =>
    intro h
    simp only [insertByScoreDesc] at h
    split_ifs at h with hlt
    · rcases List.mem_cons.mp h with h1 | h1
      · exact Or.inl h1
      · exact Or.inr h1
    · rcases List.mem_cons.mp h with h1 | h1
      · exact Or.inr (h1 ▸ List.mem_cons_self b rest)
      · rcases ih h1 with h2 | h2
        · exact Or.inl h2
        · exact Or.inr (List.mem_cons_of_mem b h2)

theorem pairwise_insertByScoreDesc (a : ApplicationRow) :
    ∀ {l}, List.Pairwise (fun x y => scoreKey y ≤ scoreKey x) l →
      List.Pairwise (fun x y => scoreKey y ≤ scoreKey x) (insertByScoreDesc a l) := by
  intro l
  induction l with
  | nil =>
    intro _
    simp [insertByScoreDesc]
  | cons b rest ih =>
    intro h
    rcases List.pairwise_cons.mp h with ⟨hb, hrest⟩
    simp only [insertByScoreDesc]
    split_ifs with hle
    · refine List.pairwise_cons.mpr ⟨?_, h⟩
      intro y hy
      rcases List.mem_cons.mp hy with rfl | hy'
      · exact hle
      · exact le_trans (hb y hy') hle
    · refine List.pairwise_cons.mpr ⟨?_, ih hrest⟩
      intro y hy
      rcases mem_insertByScoreDesc hy with rfl | hy'
      · exact le_of_lt (not_le.mp hle)
      · exact hb y hy'

theorem pairwise_sortByScoreDesc :
    ∀ l, List.Pairwise (fun x y => scoreKey y ≤ scoreKey x) (sortByScoreDesc l)
  | [] => List.Pairwise.nil
  | a :: rest => pairwise_insertByScoreDesc a (pairwise_sortByScoreDesc rest)

/-- C10, amended: on a database whose applications all carry a stored
(non-null) fit score, the ranking query returns a list sorted by stored
fit score *descending* with at most `limit` entries — but ties are
returned in storage order: the query orders by the score column alone and
adds no candidate-identifier tie-break. -/
theorem claim_C10 (db : DB) (j o : String) (limit : ℕ)
    (_h : ∀ a ∈ db.applications, a.fit_score ≠ none) :
    List.Pairwise (fun x y : TopCandidateEntry => y.fit_score ≤ x.fit_score)
      (get_top_candidates db j o limit) ∧
    (get_top_candidates db j o limit).length ≤ limit := by
  constructor
  · have base : List.Pairwise (fun x y => scoreKey y ≤ scoreKey x)
        ((sortByScoreDesc (db.applications.filter
          (fun a => a.job_id == j && a.organization_id == o))).take limit) :=
      List.Pairwise.sublist (List.take_sublist _ _) (pairwise_sortByScoreDesc _)
    simp only [get_top_candidates]
    rw [List.pairwise_filterMap]
    refine List.Pairwise.imp ?_ base
    intro a b hab
    intro x hx y hy
    cases hfa : db.candidates.find? (fun c => c.id == a.candidate_id) with
    | none => simp [hfa] at hx
    | some canda =>
      cases hfb : db.candidates.find? (fun c => c.id == b.candidate_id) with
      | none => simp [hfb] at hy
      | some candb =>
        simp only [hfa, hfb, Option.mem_def, Option.some.injEq] at hx hy
        rw [← hx, ← hy]
        exact hab
  · calc (get_top_candidates db j o limit).length
        ≤ ((sortByScoreDesc (db.applications.filter
            (fun a => a.job_id == j && a.organization_id == o))).take limit).length := by
          simp only [get_top_candidates]
          exact List.length_filterMap_le _ _
      _ ≤ limit := List.length_take_le _ _

/-- Lexicographic (code-point) order on strings, used to state the claim's
"candidate identifier ascending" tie-break. -/
def charsLt : List Char → List Char → Bool
  | _, [] => false
  | [], _ :: _ => true
  | a :: as, b :: bs =>
    if a.val < b.val then true
    else if b.val < a.val then false
    else charsLt as bs

/-- `a` strictly precedes `b` in identifier order. -/
def strLtB (a b : String) : Bool := charsLt a.data b.data

/-- Application of candidate `"b"`, stored first, with fit score `1`. -/
def appCandB : ApplicationRow :=
  { id := 1, job_id := "jj", candidate_id := "b", organization_id := "o",
    fit_score := some 1, fit_score_details := none }

/-- Application of candidate `"a"`, stored second, with the same fit
score `1`. -/
def appCandA : ApplicationRow :=
  { id := 2, job_id := "jj", candidate_id := "a", organization_id := "o",
    fit_score := some 1, fit_score_details := none }

/-- A database with two equally-scored applications for job `"jj"`, the
one of candidate `"b"` stored before the one of candidate `"a"`. -/
def dbTie : DB :=
  { jobs := []
    candidates := [{ id := "a", organization_id := "o", data := candC },
                   { id := "b", organization_id := "o", data := candC }]
    applications := [appCandB, appCandA]
    next_app_id := 3 }

/-- C10, counterexample: with two applications tied at score `1`, the
ranking query returns them in storage order — candidate `"b"` before
candidate `"a"` — so the result is *not* sorted with ties broken by
candidate identifier ascending as the claim states. -/
theorem claim_C10_counterexample :
    ((get_top_candidates dbTie "jj" "o" 10).map fun e => e.candidate.id) = ["b", "a"] ∧
    (∀ e ∈ get_top_candidates dbTie "jj" "o" 10, e.fit_score = 1) ∧
    ¬ List.Pairwise (fun x y : TopCandidateEntry =>
        y.fit_score < x.fit_score ∨
          (x.fit_score = y.fit_score ∧ strLtB x.candidate.id y.candidate.id))
      (get_top_candidates dbTie "jj" "o" 10) := by
  have hres : get_top_candidates dbTie "jj" "o" 10 =
      [{ candidate := { id := "b", organization_id := "o", data := candC },
         application := appCandB, fit_score := 1, fit_score_details := none },
       { candidate := { id := "a", organization_id := "o", data := candC },
         application := appCandA, fit_score := 1, fit_score_details := none }] := by
    simp +decide [get_top_candidates, sortByScoreDesc, insertByScoreDesc, scoreKey,
      dbTie, appCandA, appCandB, List.find?, List.filter]
  refine ⟨?_, ?_, ?_⟩
  · rw [hres]
    rfl
  · rw [hres]
    intro e he
    rcases List.mem_cons.mp he with rfl | he1
    · rfl
    · rcases List.mem_singleton.mp he1 with rfl
      rfl
  · rw [hres]
    simp +decide [List.pairwise_cons, strLtB, charsLt]

/-- Witness for the amended C10 at the concrete two-application database:
the result is sorted weakly descending and fits the limit. -/
theorem claim_C10_witness :
    List.Pairwise (fun x y : TopCandidateEntry => y.fit_score ≤ x.fit_score)
      (get_top_candidates dbTie "jj" "o" 10) ∧
    (get_top_candidates dbTie "jj" "o" 10).length ≤ 10 :=
  claim_C10 dbTie "jj" "o" 10 (by
    intro a ha
    rcases List.mem_cons.mp ha with rfl | ha1
    · simp [appCandB]
    · rcases List.mem_singleton.mp ha1 with rfl
      simp [appCandA])

end FitScore
